import Mathlib

/-
Verification of the MUSE language-learning backend's spaced-repetition
scheduling engine (`app/services/learning/srs.py`) against its
natural-language specification.

Embedding conventions:
* Python `float` is modelled by `ℚ` (exact rational arithmetic; the source's
  IEEE-754 rounding is not modelled), except where the source calls
  `math.exp`, which forces `ℝ` and `Real.exp`.
* Python `datetime` values are modelled as whole days (`ℤ`): the engine only
  ever adds whole-day `timedelta`s, compares timestamps, and extracts `.days`
  from differences, so day granularity is faithful to every code path used
  here.  `datetime.utcnow()` becomes an explicit `now : ℤ` parameter.
* Python `int(x)` on a float is truncation toward zero (`pyTrunc`).
* Python `round(x, 1)` is modelled as rounding to one decimal place,
  half away from zero upward (`round1q` / `round1r`); the source's
  half-to-even float behaviour differs only at exact ties.
* The source's mutation of the card in place becomes a function returning the
  updated card: every "the function does not mutate the card" statement is
  therefore true by construction for the read-only queries, which never
  return a card at all.
-/

namespace Muse

/-- Python `int()` truncation toward zero on a rational. -/
def pyTrunc (q : ℚ) : ℤ := if 0 ≤ q then ⌊q⌋ else ⌈q⌉

/-- The SRS card dataclass from `srs.py` (`SRSCard`), with the same fields and
the same construction defaults.  Timestamps are whole days (`ℤ`), absent
timestamps are `none`. -/
structure SRSCard where
  id : String := ""
  word : String := ""
  meaning : String := ""
  ease_factor : ℚ := 5/2
  interval : ℤ := 1
  repetitions : ℤ := 0
  next_review : Option ℤ := none
  last_reviewed : Option ℤ := none
  total_reviews : ℤ := 0
  correct_count : ℤ := 0
  incorrect_count : ℤ := 0
  average_response_time : ℚ := 0
  deriving DecidableEq, Repr

/-- The decision log (`changes` dict) assembled by `calculate_next_review`. -/
structure Changes where
  previous_interval : ℤ
  previous_ease : ℚ
  quality : ℤ
  time_factor : ℚ
  action : String
  new_interval : ℤ
  new_ease : ℚ
  next_review : ℤ
  deriving DecidableEq, Repr

namespace SpacedRepetitionEngine

def MIN_EASE_FACTOR : ℚ := 13/10
def MAX_EASE_FACTOR : ℚ := 5/2
def MAX_INTERVAL : ℤ := 365
def GRADUATING_INTERVAL : ℤ := 1

/-- `_calculate_time_factor`: response-time correction factor relative to a
3000 ms baseline (faster than baseline scales up to 1.2, slower scales down
to 0.8, saturating at twice the baseline of excess). -/
def calculate_time_factor (response_time_ms : ℤ) : ℚ :=
  let baseline : ℤ := 3000
  if response_time_ms < baseline then
    1 + ((baseline - response_time_ms : ℤ) : ℚ) / (baseline : ℚ) * (2/10)
  else
    let excess : ℤ := min (response_time_ms - baseline) (baseline * 2)
    1 - (excess : ℚ) / ((baseline * 2 : ℤ) : ℚ) * (2/10)

/-- `_calculate_ease_factor`: SM-2 delta `0.1 - (5-q)*(0.08 + (5-q)*0.02)`,
scaled by the time factor, added to the current ease, clamped to
`[MIN_EASE_FACTOR, MAX_EASE_FACTOR]`. -/
def calculate_ease_factor (current_ease : ℚ) (quality : ℤ) (time_factor : ℚ) : ℚ :=
  let q : ℚ := ((quality : ℤ) : ℚ)
  let delta := 1/10 - (5 - q) * (8/100 + (5 - q) * (2/100))
  let delta' := delta * time_factor
  let new_ease := current_ease + delta'
  max MIN_EASE_FACTOR (min MAX_EASE_FACTOR new_ease)

/-- `calculate_next_review`: one scheduling step (SM-2 derivative).  The
source mutates `card` field by field; the successive `let`-bound records
below mirror those mutations in order.  The source performs no validation of
`quality` or `response_time_ms`: neither does this model. -/
def calculate_next_review (card : SRSCard) (quality : ℤ) (response_time_ms : ℤ)
    (now : ℤ) : SRSCard × Changes :=
  let time_factor := calculate_time_factor response_time_ms
  let new_ease := calculate_ease_factor card.ease_factor quality time_factor
  let previous_interval := card.interval
  let previous_ease := card.ease_factor
  let c1 : SRSCard :=
    if quality < 3 then
      { card with repetitions := 0, interval := 1,
                  incorrect_count := card.incorrect_count + 1 }
    else
      let ca := { card with correct_count := card.correct_count + 1 }
      let cb :=
        if ca.repetitions = 0 then { ca with interval := GRADUATING_INTERVAL }
        else if ca.repetitions = 1 then { ca with interval := 6 }
        else { ca with interval := pyTrunc ((ca.interval : ℚ) * new_ease) }
      let cc :=
        if quality = 5 then { cb with interval := pyTrunc ((cb.interval : ℚ) * (13/10)) }
        else cb
      { cc with repetitions := cc.repetitions + 1 }
  let action : String := if quality < 3 then "reset" else "advance"
  let c2 := { c1 with interval := min c1.interval MAX_INTERVAL }
  let c3 := { c2 with interval := max c2.interval 1 }
  let c4 := { c3 with ease_factor := new_ease }
  let c5 := { c4 with next_review := some (now + c4.interval), last_reviewed := some now }
  let c6 := { c5 with total_reviews := c5.total_reviews + 1 }
  let c7 := { c6 with average_response_time :=
      (c6.average_response_time * ((c6.total_reviews - 1 : ℤ) : ℚ) + (response_time_ms : ℚ))
        / ((c6.total_reviews : ℤ) : ℚ) }
  (c7,
   { previous_interval := previous_interval
     previous_ease := previous_ease
     quality := quality
     time_factor := time_factor
     action := action
     new_interval := c7.interval
     new_ease := c7.ease_factor
     next_review := now + c7.interval })

/-- Result dict of `get_due_cards`. -/
structure DueResult where
  review : List SRSCard
  new : List SRSCard
  total_due : ℕ
  total_new : ℕ
  deriving DecidableEq, Repr

/-- The due filter `c.next_review and c.next_review <= now` (a `None`
timestamp is falsy in Python). -/
def isDue (now : ℤ) (c : SRSCard) : Bool :=
  match c.next_review with
  | some t => t ≤ now
  | none => false

/-- The new-card filter `c.repetitions == 0 and c.next_review is None`. -/
def isNewCard (c : SRSCard) : Bool :=
  c.repetitions = 0 && c.next_review = none

/-- Days overdue, `(now - c.next_review).days`, for the sort key of
`get_due_cards` (every card reaching the sort has `next_review` set; the
`getD` default is never exercised there). -/
def days_overdue (now : ℤ) (c : SRSCard) : ℤ := now - c.next_review.getD now

/-- The sort order of `get_due_cards`: Python's stable sort with key
`((now - c.next_review).days, -c.ease_factor)` and `reverse=True` places `a`
no later than `b` exactly when `a` is more days overdue, or equally overdue
with `a.ease_factor ≤ b.ease_factor`. -/
def duePriority (now : ℤ) (a b : SRSCard) : Bool :=
  decide (days_overdue now b < days_overdue now a ∨
    (days_overdue now b = days_overdue now a ∧ a.ease_factor ≤ b.ease_factor))

/-- `get_due_cards`: partition into due and new pools, sort the due pool by
priority, return the truncated slices together with the full pool sizes. -/
def get_due_cards (cards : List SRSCard) (now : ℤ) (limit : ℕ := 20)
    (include_new : ℕ := 5) : DueResult :=
  let due_cards := cards.filter (isDue now)
  let due_sorted := due_cards.mergeSort (duePriority now)
  let new_cards := cards.filter isNewCard
  { review := due_sorted.take limit
    new := new_cards.take include_new
    total_due := due_cards.length
    total_new := new_cards.length }

/-- Python `round(x, 1)` on a rational (half rounds up; the source's float
`round` differs only at exact ties). -/
def round1q (q : ℚ) : ℚ := ((⌊10 * q + 1/2⌋ : ℤ) : ℚ) / 10

/-- Result dict of `get_mastery_level`. -/
structure MasteryInfo where
  mastery_percent : ℚ
  level : String
  color : String
  accuracy : ℚ
  interval_days : ℤ
  reviews_count : ℤ
  is_mastered : Bool
  deriving DecidableEq, Repr

/-- The composite mastery score computed inside `get_mastery_level`:
`(accuracy * 0.3 + interval_score * 0.5 + ease_score * 0.2) * 100`, where
`accuracy = correct_count / (correct_count + incorrect_count)` (0 when that
sum is 0), `interval_score = min(interval / 90, 1.0)` and
`ease_score = (ease_factor - 1.3) / (2.5 - 1.3)`. -/
def mastery_score (card : SRSCard) : ℚ :=
  let total := card.correct_count + card.incorrect_count
  let accuracy : ℚ := if 0 < total then (card.correct_count : ℚ) / ((total : ℤ) : ℚ) else 0
  let interval_score : ℚ := min ((card.interval : ℚ) / 90) 1
  let ease_score : ℚ :=
    (card.ease_factor - MIN_EASE_FACTOR) / (MAX_EASE_FACTOR - MIN_EASE_FACTOR)
  (accuracy * (3/10) + interval_score * (5/10) + ease_score * (2/10)) * 100

/-- The level bucketing `if/elif` chain of `get_mastery_level`. -/
def levelOf (mastery : ℚ) : String :=
  if mastery ≥ 90 then "Mastered"
  else if mastery ≥ 70 then "Familiar"
  else if mastery ≥ 40 then "Learning"
  else "New"

/-- The color `if/elif` chain of `get_mastery_level`. -/
def colorOf (mastery : ℚ) : String :=
  if mastery ≥ 90 then "gold"
  else if mastery ≥ 70 then "green"
  else if mastery ≥ 40 then "blue"
  else "gray"

/-- `get_mastery_level`: mastery score, bucketed level, and the statistics
dict returned to the caller. -/
def get_mastery_level (card : SRSCard) : MasteryInfo :=
  let total := card.correct_count + card.incorrect_count
  let accuracy : ℚ := if 0 < total then (card.correct_count : ℚ) / ((total : ℤ) : ℚ) else 0
  let mastery := mastery_score card
  { mastery_percent := round1q mastery
    level := levelOf mastery
    color := colorOf mastery
    accuracy := round1q (accuracy * 100)
    interval_days := card.interval
    reviews_count := card.total_reviews
    is_mastered := decide (mastery ≥ 90) }

/-- Rounding to one decimal place over `ℝ`, for `round(retention * 100, 1)`. -/
noncomputable def round1r (x : ℝ) : ℝ := ((⌊10 * x + 1/2⌋ : ℤ) : ℝ) / 10

/-- `predict_retention`: exponential forgetting-curve estimate
`round(exp(-elapsed_days / (interval * ease_factor)) * 100, 1)`, or `0.0`
when the card has never been reviewed.  Noncomputable solely because the
source's `math.exp` becomes `Real.exp`. -/
noncomputable def predict_retention (card : SRSCard) (now : ℤ)
    (days_from_now : ℤ) : ℝ :=
  match card.last_reviewed with
  | none => 0
  | some lr =>
    let elapsed_days : ℤ := now + days_from_now - lr
    let stability : ℚ := (card.interval : ℚ) * card.ease_factor
    round1r (Real.exp (-((elapsed_days : ℤ) : ℝ) / ((stability : ℚ) : ℝ)) * 100)

end SpacedRepetitionEngine

open SpacedRepetitionEngine

/-! Helper lemmas about the scheduling step. -/

/-- The ease factor written back by a scheduling step is exactly the clamped
SM-2 update, whichever branch is taken. -/
lemma ease_factor_after (card : SRSCard) (q rt now : ℤ) :
    (calculate_next_review card q rt now).1.ease_factor =
      calculate_ease_factor card.ease_factor q (calculate_time_factor rt) := rfl

/-- The time-correction factor is strictly positive for every response time
(even a negative one). -/
lemma time_factor_pos (t : ℤ) : 0 < calculate_time_factor t := by
  simp only [calculate_time_factor]
  split_ifs
  · rename_i h
    have h1 : (0:ℚ) < ((3000 - t : ℤ) : ℚ) := by
      have : (0:ℤ) < 3000 - t := by omega
      exact_mod_cast this
    linarith
  · rename_i h
    have h1 : ((min (t - 3000) (3000 * 2) : ℤ) : ℚ) ≤ 6000 := by
      have : (min (t - 3000) (3000 * 2) : ℤ) ≤ 6000 := by omega
      exact_mod_cast this
    push_cast at h1 ⊢
    linarith

/-- The clamp at the end of `_calculate_ease_factor` forces its result into
`[1.3, 2.5]`, for arbitrary quality and time factor. -/
lemma calculate_ease_factor_mem (e tf : ℚ) (q : ℤ) :
    13/10 ≤ calculate_ease_factor e q tf ∧ calculate_ease_factor e q tf ≤ 5/2 := by
  simp only [calculate_ease_factor, MIN_EASE_FACTOR, MAX_EASE_FACTOR]
  exact ⟨le_max_left _ _, max_le (by norm_num) (min_le_left _ _)⟩

/-- For passing qualities (`3 ≤ q1 < q2 ≤ 5`) the SM-2 delta is monotone in
quality, and multiplying by a nonnegative time factor and clamping preserves
the monotonicity. -/
lemma calculate_ease_factor_mono (e tf : ℚ) (htf : 0 ≤ tf) (q1 q2 : ℤ)
    (h1 : 3 ≤ q1) (h2 : q1 < q2) (h3 : q2 ≤ 5) :
    calculate_ease_factor e q1 tf ≤ calculate_ease_factor e q2 tf := by
  unfold calculate_ease_factor
  have hd : (1/10 - (5 - ((q1 : ℤ) : ℚ)) * (8/100 + (5 - ((q1 : ℤ) : ℚ)) * (2/100))) ≤
      (1/10 - (5 - ((q2 : ℤ) : ℚ)) * (8/100 + (5 - ((q2 : ℤ) : ℚ)) * (2/100))) := by
    have hu : q1 ≤ 4 := by omega
    interval_cases q1 <;> interval_cases q2 <;> norm_num
  exact max_le_max (le_refl _) (min_le_min (le_refl _)
    (add_le_add_left (mul_le_mul_of_nonneg_right hd htf) e))

/-- A fresh card as constructed by the dataclass defaults. -/
def demoCard : SRSCard := {}

/-! Claim C1. -/

/-- Card witnessing that out-of-range quality is processed, not rejected. -/
def invalidQualityCard : SRSCard := { ease_factor := 2 }

/-- C1 counterexample: calling the scheduling step with `quality = 7`
(outside `{0..5}`) is not rejected: the card is mutated (`total_reviews`
becomes 1, `correct_count` becomes 1, the pass branch is taken), and the raw
quality 7 flows into the ease computation, whose SM-2 delta at `q = 7`,
`time_factor = 1` is `0.18`, giving ease `2 + 0.18 = 109/50` — had the
quality been clamped to 5 the delta would have been `0.1` and the ease
`21/10`.  There is no invalid-input error path anywhere in
`calculate_next_review`. -/
theorem schedule_rejects_nothing_cex :
    (calculate_next_review invalidQualityCard 7 3000 0).1.total_reviews = 1 ∧
    (calculate_next_review invalidQualityCard 7 3000 0).1.correct_count = 1 ∧
    (calculate_next_review invalidQualityCard 7 3000 0).1.ease_factor = 109/50 ∧
    (calculate_next_review invalidQualityCard 7 3000 0).1.ease_factor ≠ 21/10 := by
  simp only [calculate_next_review, calculate_ease_factor, calculate_time_factor,
    pyTrunc, invalidQualityCard, MIN_EASE_FACTOR, MAX_EASE_FACTOR, MAX_INTERVAL,
    GRADUATING_INTERVAL]
  norm_num

/-- C1 (amended): the scheduling step performs no input validation at all.
Every call — including one whose quality is outside `{0..1..5}` or whose
response time is negative — is processed and mutates the card
(`total_reviews` is always incremented), and the quality value is passed
through unchanged (never clamped) into the decision log and into the ease
computation. -/
theorem schedule_no_validation (card : SRSCard) (q rt now : ℤ) :
    (calculate_next_review card q rt now).1.total_reviews = card.total_reviews + 1 ∧
    (calculate_next_review card q rt now).2.quality = q ∧
    (calculate_next_review card q rt now).2.new_ease =
      calculate_ease_factor card.ease_factor q (calculate_time_factor rt) := by
  refine ⟨?_, rfl, rfl⟩
  simp only [calculate_next_review]
  split_ifs <;> simp

/-! Claim C2. -/

/-- C2: for every card with in-range ease and interval, every quality in
`0..5` and nonnegative response time, the scheduling step returns a card with
`1.3 ≤ ease_factor ≤ 2.5` and `1 ≤ interval ≤ 365`. -/
theorem schedule_result_in_range (card : SRSCard) (q rt now : ℤ)
    (he1 : 13/10 ≤ card.ease_factor) (he2 : card.ease_factor ≤ 5/2)
    (hi1 : 1 ≤ card.interval) (hi2 : card.interval ≤ 365)
    (hq1 : 0 ≤ q) (hq2 : q ≤ 5) (hrt : 0 ≤ rt) :
    13/10 ≤ (calculate_next_review card q rt now).1.ease_factor ∧
    (calculate_next_review card q rt now).1.ease_factor ≤ 5/2 ∧
    1 ≤ (calculate_next_review card q rt now).1.interval ∧
    (calculate_next_review card q rt now).1.interval ≤ 365 := by
  refine ⟨?_, ?_, ?_, ?_⟩
  · rw [ease_factor_after]
    exact (calculate_ease_factor_mem _ _ _).1
  · rw [ease_factor_after]
    exact (calculate_ease_factor_mem _ _ _).2
  · simp only [calculate_next_review, MAX_INTERVAL]
    exact le_max_right _ _
  · simp only [calculate_next_review, MAX_INTERVAL]
    exact max_le (le_trans (min_le_right _ _) (by norm_num)) (by norm_num)

/-- C2 witness: the fresh card with `quality = 4`, `response_time_ms = 2000`
satisfies every hypothesis, and the theorem applies. -/
theorem schedule_result_in_range_witness :
    ((13:ℚ)/10 ≤ demoCard.ease_factor ∧ demoCard.ease_factor ≤ 5/2 ∧
      1 ≤ demoCard.interval ∧ demoCard.interval ≤ 365 ∧
      (0:ℤ) ≤ 4 ∧ (4:ℤ) ≤ 5 ∧ (0:ℤ) ≤ 2000) ∧
    (13/10 ≤ (calculate_next_review demoCard 4 2000 0).1.ease_factor ∧
      (calculate_next_review demoCard 4 2000 0).1.ease_factor ≤ 5/2 ∧
      1 ≤ (calculate_next_review demoCard 4 2000 0).1.interval ∧
      (calculate_next_review demoCard 4 2000 0).1.interval ≤ 365) :=
  ⟨by norm_num [demoCard],
   schedule_result_in_range demoCard 4 2000 0 (by norm_num [demoCard])
     (by norm_num [demoCard]) (by norm_num [demoCard]) (by norm_num [demoCard])
     (by norm_num) (by norm_num) (by norm_num)⟩

/-! Claim C3. -/

/-- C3: a failing review (`quality < 3`) always resets the card —
`repetitions = 0`, `interval = 1` (whatever the prior state),
`incorrect_count` incremented by exactly one, and the decision log tagged
`"reset"`. -/
theorem fail_resets_card (card : SRSCard) (q rt now : ℤ) (h : q < 3) :
    (calculate_next_review card q rt now).1.repetitions = 0 ∧
    (calculate_next_review card q rt now).1.interval = 1 ∧
    (calculate_next_review card q rt now).1.incorrect_count = card.incorrect_count + 1 ∧
    (calculate_next_review card q rt now).2.action = "reset" := by
  simp [calculate_next_review, MAX_INTERVAL, h]

/-- A mature card used to witness the reset branch. -/
def matureCard : SRSCard :=
  { repetitions := 3, interval := 10, ease_factor := 2, incorrect_count := 4 }

/-- C3 witness: a mature card (`repetitions = 3`, `interval = 10`) reset by a
`quality = 1` review. -/
theorem fail_resets_card_witness :
    ((1:ℤ) < 3) ∧
    ((calculate_next_review matureCard 1 500 0).1.repetitions = 0 ∧
      (calculate_next_review matureCard 1 500 0).1.interval = 1 ∧
      (calculate_next_review matureCard 1 500 0).1.incorrect_count =
        matureCard.incorrect_count + 1 ∧
      (calculate_next_review matureCard 1 500 0).2.action = "reset") :=
  ⟨by norm_num, fail_resets_card matureCard 1 500 0 (by norm_num)⟩

/-! Claim C4. -/

/-- C4: every scheduling step preserves
`total_reviews = correct_count + incorrect_count`: `total_reviews` always
gains exactly one, and so does exactly one of the two outcome counters. -/
theorem counter_invariant_preserved (card : SRSCard) (q rt now : ℤ)
    (h : card.total_reviews = card.correct_count + card.incorrect_count) :
    (calculate_next_review card q rt now).1.total_reviews =
      (calculate_next_review card q rt now).1.correct_count +
        (calculate_next_review card q rt now).1.incorrect_count ∧
    (calculate_next_review card q rt now).1.total_reviews = card.total_reviews + 1 ∧
    (calculate_next_review card q rt now).1.correct_count +
        (calculate_next_review card q rt now).1.incorrect_count =
      card.correct_count + card.incorrect_count + 1 := by
  simp only [calculate_next_review]
  split_ifs <;> simp <;> omega

/-- C4 witness: the invariant holds on the fresh card (all counters 0) and is
preserved by a `quality = 4` review. -/
theorem counter_invariant_preserved_witness :
    (demoCard.total_reviews = demoCard.correct_count + demoCard.incorrect_count) ∧
    ((calculate_next_review demoCard 4 2000 0).1.total_reviews =
      (calculate_next_review demoCard 4 2000 0).1.correct_count +
        (calculate_next_review demoCard 4 2000 0).1.incorrect_count ∧
    (calculate_next_review demoCard 4 2000 0).1.total_reviews =
      demoCard.total_reviews + 1 ∧
    (calculate_next_review demoCard 4 2000 0).1.correct_count +
        (calculate_next_review demoCard 4 2000 0).1.incorrect_count =
      demoCard.correct_count + demoCard.incorrect_count + 1) :=
  ⟨by norm_num [demoCard], counter_invariant_preserved demoCard 4 2000 0
    (by norm_num [demoCard])⟩

/-! Claim C5. -/

/-- C5: on initially identical cards with the same response time and passing
qualities `3 ≤ q1 < q2 ≤ 5`, the higher quality never yields a smaller
resulting ease factor. -/
theorem ease_monotone_in_quality (card : SRSCard) (rt now q1 q2 : ℤ)
    (h1 : 3 ≤ q1) (h2 : q1 < q2) (h3 : q2 ≤ 5) :
    (calculate_next_review card q1 rt now).1.ease_factor ≤
      (calculate_next_review card q2 rt now).1.ease_factor := by
  rw [ease_factor_after, ease_factor_after]
  exact calculate_ease_factor_mono card.ease_factor _ (time_factor_pos rt).le
    q1 q2 h1 h2 h3

/-- C5 witness: the fresh card with qualities 3 and 5, response time 1000. -/
theorem ease_monotone_in_quality_witness :
    ((3:ℤ) ≤ 3 ∧ (3:ℤ) < 5 ∧ (5:ℤ) ≤ 5) ∧
    (calculate_next_review demoCard 3 1000 0).1.ease_factor ≤
      (calculate_next_review demoCard 5 1000 0).1.ease_factor :=
  ⟨by norm_num, ease_monotone_in_quality demoCard 1000 0 3 5 (by norm_num)
    (by norm_num) (by norm_num)⟩

/-! Claim C8. -/

/-- The card of spec scenario B. -/
def scenarioBCard : SRSCard := { repetitions := 1, interval := 1, ease_factor := 5/2 }

/-- C8: on a card with `repetitions = 1`, `interval = 1`, `ease = 2.5`, a
`quality = 5`, `response_time_ms = 1000` review yields `repetitions = 2`,
`interval = 7` (the fixed second-pass step 6, times the 1.3 perfect bonus,
truncated: `int(6 * 1.3) = 7`) and ease still clamped at 2.5. -/
theorem scenario_b_exact :
    (calculate_next_review scenarioBCard 5 1000 0).1.repetitions = 2 ∧
    (calculate_next_review scenarioBCard 5 1000 0).1.interval = 7 ∧
    (calculate_next_review scenarioBCard 5 1000 0).1.ease_factor = 5/2 := by
  simp only [calculate_next_review, calculate_ease_factor, calculate_time_factor,
    pyTrunc, scenarioBCard, MIN_EASE_FACTOR, MAX_EASE_FACTOR, MAX_INTERVAL,
    GRADUATING_INTERVAL]
  norm_num

/-! Claim C6. -/

/-- The mastery score exactly as the claim words it: accuracy is
`correct_count / total_reviews` (0 when there are no reviews yet), combined
as `0.3 * accuracy + 0.5 * min(interval/90, 1) + 0.2 * normalized ease`,
scaled to 0–100. -/
def mastery_score_claim (card : SRSCard) : ℚ :=
  let accuracy : ℚ :=
    if 0 < card.total_reviews then (card.correct_count : ℚ) / ((card.total_reviews : ℤ) : ℚ)
    else 0
  100 * ((3/10) * accuracy + (5/10) * min ((card.interval : ℚ) / 90) 1 +
    (2/10) * ((card.ease_factor - 13/10) / (5/2 - 13/10)))

/-- The claim's level buckets over its score: New below 40, Learning 40–69,
Familiar 70–89, Mastered at 90 or above. -/
def mastery_level_claim (card : SRSCard) : String :=
  if mastery_score_claim card < 40 then "New"
  else if mastery_score_claim card < 70 then "Learning"
  else if mastery_score_claim card < 90 then "Familiar"
  else "Mastered"

/-- A card on which `correct_count + incorrect_count ≠ total_reviews`, the
regime where the code's accuracy denominator and the claim's denominator
disagree. -/
def invariantViolatingCard : SRSCard :=
  { correct_count := 9, incorrect_count := 1, total_reviews := 20,
    interval := 90, ease_factor := 5/2 }

/-- C6 counterexample: `get_mastery_level` divides by
`correct_count + incorrect_count`, not by `total_reviews`.  On a card with
`correct = 9`, `incorrect = 1`, `total_reviews = 20` the code's accuracy is
`9/10` and its score 97 ("Mastered"), while the claim's formula gives
accuracy `9/20` and score 83.5 ("Familiar"). -/
theorem mastery_denominator_cex :
    (get_mastery_level invariantViolatingCard).level = "Mastered" ∧
    mastery_level_claim invariantViolatingCard = "Familiar" ∧
    (get_mastery_level invariantViolatingCard).level ≠
      mastery_level_claim invariantViolatingCard := by
  have h1 : (get_mastery_level invariantViolatingCard).level = "Mastered" := by
    simp only [get_mastery_level, mastery_score, levelOf, invariantViolatingCard,
      MIN_EASE_FACTOR, MAX_EASE_FACTOR]
    norm_num
  have h2 : mastery_level_claim invariantViolatingCard = "Familiar" := by
    simp only [mastery_level_claim, mastery_score_claim, invariantViolatingCard]
    norm_num
  refine ⟨h1, h2, ?_⟩
  rw [h1, h2]
  simp

/-- The mastery score as amended: identical to the claim's composite except
that accuracy is `correct_count / (correct_count + incorrect_count)`
(0 when that sum is 0), which is what the code divides by. -/
def mastery_score_amended (card : SRSCard) : ℚ :=
  let t := card.correct_count + card.incorrect_count
  let acc : ℚ := if 0 < t then (card.correct_count : ℚ) / ((t : ℤ) : ℚ) else 0
  100 * ((3/10) * acc + (5/10) * min ((card.interval : ℚ) / 90) 1 +
    (2/10) * ((card.ease_factor - 13/10) / (5/2 - 13/10)))

/-- The code's internal score equals the amended composite. -/
lemma mastery_score_eq (card : SRSCard) :
    mastery_score card = mastery_score_amended card := by
  simp only [mastery_score, mastery_score_amended, MIN_EASE_FACTOR, MAX_EASE_FACTOR]
  by_cases h : 0 < card.correct_count + card.incorrect_count <;> simp [h] <;> ring

/-- The bucketing chain sends a score to exactly the claimed ordinal
intervals. -/
lemma levelOf_bucket (m : ℚ) :
    (levelOf m = "Mastered" ↔ 90 ≤ m) ∧
    (levelOf m = "Familiar" ↔ 70 ≤ m ∧ m < 90) ∧
    (levelOf m = "Learning" ↔ 40 ≤ m ∧ m < 70) ∧
    (levelOf m = "New" ↔ m < 40) := by
  unfold levelOf
  split_ifs with h1 h2 h3 <;>
    refine ⟨?_, ?_, ?_, ?_⟩ <;> simp_all <;> first | linarith | (intro h; linarith)

/-- C6 (amended): `get_mastery_level` buckets the weighted composite
`0.3 * accuracy + 0.5 * min(interval/90, 1) + 0.2 * ((ease - 1.3)/(2.5 - 1.3))`
scaled to 0–100 into New (< 40), Learning (40–69), Familiar (70–89) and
Mastered (≥ 90) — with accuracy computed as
`correct_count / (correct_count + incorrect_count)` (0 when that sum is 0),
not `correct_count / total_reviews`. -/
theorem mastery_level_amended (card : SRSCard) :
    ((get_mastery_level card).level = "Mastered" ↔ 90 ≤ mastery_score_amended card) ∧
    ((get_mastery_level card).level = "Familiar" ↔
      70 ≤ mastery_score_amended card ∧ mastery_score_amended card < 90) ∧
    ((get_mastery_level card).level = "Learning" ↔
      40 ≤ mastery_score_amended card ∧ mastery_score_amended card < 70) ∧
    ((get_mastery_level card).level = "New" ↔ mastery_score_amended card < 40) := by
  have h : (get_mastery_level card).level = levelOf (mastery_score card) := rfl
  rw [h, mastery_score_eq]
  exact levelOf_bucket _

/-! Claim C7. -/

/-- A reviewed card on which the retention estimate is provably not the bare
exponential (interval 1, ease 2, reviewed on day 0). -/
def retentionCard : SRSCard := { interval := 1, ease_factor := 2, last_reviewed := some 0 }

/-- Taylor bounds at order 7 for `exp(-1/2)`:
`exp(-1/2) ∈ [27949/46080 - 1/564480, 27949/46080 + 1/564480]`. -/
lemma exp_half_bounds :
    (27949/46080 - 1/564480 : ℝ) ≤ Real.exp (-(1/2)) ∧
      Real.exp (-(1/2)) ≤ 27949/46080 + 1/564480 := by
  have habs : |(-(1/2) : ℝ)| = 1/2 := by
    rw [abs_neg]
    exact abs_of_pos (by norm_num)
  have hx : |(-(1/2) : ℝ)| ≤ 1 := by rw [habs]; norm_num
  have hb := @Real.exp_bound (-(1/2)) hx 7 (by norm_num)
  have hsum : (∑ m ∈ Finset.range 7, (-(1/2) : ℝ) ^ m / m.factorial) = 27949/46080 := by
    simp [Finset.sum_range_succ, Nat.factorial]
    norm_num
  rw [hsum, habs] at hb
  norm_num [Nat.succ_eq_add_one, Nat.factorial] at hb
  have h1 := abs_le.mp hb
  constructor <;> linarith [h1.1, h1.2]

/-- C7 counterexample: the claim says `predict_retention` returns
`exp(-elapsed / (interval * ease)) * 100`, but the code rounds that value to
one decimal place.  On `retentionCard` one day ahead, `elapsed = 1` and
`stability = 2`: the code returns exactly `60.7`, while
`exp(-1/2) * 100 ∈ (60.65, 60.66)` is strictly below `60.7`. -/
theorem predict_retention_rounds_cex :
    predict_retention retentionCard 0 1 = 607/10 ∧
    Real.exp (-((1:ℝ)) / ((1:ℝ) * 2)) * 100 < 607/10 := by
  have hb := exp_half_bounds
  have harg : (-((1:ℝ)) / ((1:ℝ) * 2)) = -(1/2) := by norm_num
  constructor
  · have h : predict_retention retentionCard 0 1 =
        round1r (Real.exp (-(1/2)) * 100) := by
      simp only [predict_retention, retentionCard, round1r]
      norm_num
    rw [h, round1r]
    have hfl : (⌊10 * (Real.exp (-(1/2)) * 100) + 1/2⌋ : ℤ) = 607 := by
      rw [Int.floor_eq_iff]
      push_cast
      constructor <;> linarith [hb.1, hb.2]
    rw [hfl]
    norm_num
  · rw [harg]
    linarith [hb.2]

/-- C7 (amended): `predict_retention` returns
`exp(-elapsed / (interval * ease_factor)) * 100` rounded to one decimal
place, where `elapsed` is the days between `last_reviewed` and the target
date, and returns 0 when the card has never been reviewed.  It is a pure
function of the card and so never mutates it. -/
theorem predict_retention_formula (card : SRSCard) (now d : ℤ) :
    predict_retention card now d =
      match card.last_reviewed with
      | none => 0
      | some lr =>
        round1r (Real.exp (-(((now + d - lr : ℤ) : ℝ)) /
          ((card.interval : ℝ) * (card.ease_factor : ℝ))) * 100) := by
  cases h : card.last_reviewed with
  | none => simp [predict_retention, h]
  | some lr =>
    simp only [predict_retention, h]
    push_cast
    ring_nf

/-! Claim C9. -/

/-- The due-card sort relation is transitive. -/
lemma duePriority_trans (now : ℤ) (a b c : SRSCard) (h1 : duePriority now a b)
    (h2 : duePriority now b c) : duePriority now a c := by
  simp only [duePriority, decide_eq_true_eq] at h1 h2 ⊢
  rcases h1 with h1 | ⟨h1e, h1q⟩ <;> rcases h2 with h2 | ⟨h2e, h2q⟩
  · exact Or.inl (by omega)
  · exact Or.inl (by omega)
  · exact Or.inl (by omega)
  · exact Or.inr ⟨by omega, le_trans h1q h2q⟩

/-- The due-card sort relation is total. -/
lemma duePriority_total (now : ℤ) (a b : SRSCard) :
    duePriority now a b || duePriority now b a := by
  simp only [duePriority, Bool.or_eq_true, decide_eq_true_eq]
  rcases lt_trichotomy (days_overdue now a) (days_overdue now b) with h | h | h
  · exact Or.inr (Or.inl h)
  · rcases le_total a.ease_factor b.ease_factor with hq | hq
    · exact Or.inl (Or.inr ⟨h.symm, hq⟩)
    · exact Or.inr (Or.inr ⟨h, hq⟩)
  · exact Or.inl (Or.inl h)

/-- C9: the returned `review` list is ordered most-days-overdue first with
lower ease factor first among equally-overdue cards; it is the top `limit`
slice of the full due pool; and `total_due` / `total_new` count the full due
and new pools, not the truncated slices. -/
theorem get_due_cards_spec (cards : List SRSCard) (now : ℤ) (limit includeN : ℕ) :
    (get_due_cards cards now limit includeN).review.Pairwise (fun a b =>
      days_overdue now b < days_overdue now a ∨
        (days_overdue now b = days_overdue now a ∧ a.ease_factor ≤ b.ease_factor)) ∧
    (get_due_cards cards now limit includeN).review.length =
      min limit (cards.countP (isDue now)) ∧
    (get_due_cards cards now limit includeN).total_due = cards.countP (isDue now) ∧
    (get_due_cards cards now limit includeN).total_new = cards.countP isNewCard := by
  refine ⟨?_, ?_, ?_, ?_⟩
  · have hs := List.sorted_mergeSort
      (fun a b c => duePriority_trans now a b c)
      (fun a b => duePriority_total now a b) (cards.filter (isDue now))
    have hp := hs.sublist (List.take_sublist limit _)
    exact hp.imp (fun {a b} hab => by
      simpa only [duePriority, decide_eq_true_eq] using hab)
  · simp [get_due_cards, List.countP_eq_length_filter]
  · simp [get_due_cards, List.countP_eq_length_filter]
  · simp [get_due_cards, List.countP_eq_length_filter]

/-! Claim C10. -/

/-- C10: no card is returned both as due and as new: every member of the
`review` slice passed the due filter (so its `next_review` is set), while
every member of the `new` slice passed the new filter (so its `next_review`
is `none`). -/
theorem due_and_new_disjoint (cards : List SRSCard) (now : ℤ) (limit includeN : ℕ) :
    List.Disjoint (get_due_cards cards now limit includeN).review
      (get_due_cards cards now limit includeN).new := by
  intro c hc1 hc2
  simp only [get_due_cards] at hc1 hc2
  have h1 : c ∈ (cards.filter (isDue now)).mergeSort (duePriority now) :=
    List.take_subset _ _ hc1
  rw [List.mem_mergeSort] at h1
  have h2 : isDue now c = true := List.of_mem_filter h1
  have h3 : isNewCard c = true := List.of_mem_filter (List.take_subset _ _ hc2)
  simp only [isNewCard, Bool.and_eq_true, decide_eq_true_eq] at h3
  rw [isDue, h3.2] at h2
  exact Bool.false_ne_true h2

end Muse
